import Mathlib

/-!
Verification of the HTTP/1.0 proxy core (`http-proxy.py`): a shallow
embedding of its message parser (`parse_line`, `get_header_response`,
`parse_message`), its serializer (`build_message`) and its URI resolver
(`parse_uri`), together with theorems settling the specified properties.

Python strings are modelled as lists of Unicode code points and Python byte
strings as lists of byte values; the Latin-1 (ISO-8859-1) codec used by the
program is the identity on code points below 256, so decoding and encoding
are the identity maps here.  Python `None` is modelled by `Option.none`, and
a raised exception by an `Option`/`Except` failure of the enclosing
function, mirroring the program's `try`/`except` structure.
-/

/-- Python `str` values: lists of Unicode code points. -/
abbrev PyStr := List Nat

/-- Python `bytes` values: lists of byte values. -/
abbrev Bytes := List Nat

/-- Code points of a Lean string literal, for writing concrete Python strings
and Latin-1 byte strings. -/
def strLit (s : String) : PyStr := s.data.map Char.toNat

/-- Python whitespace test (`str.isspace`, the character class stripped by
`str.strip()`), restricted to code points below 256 — the only code points
Latin-1 decoding can produce: TAB, LF, VT, FF, CR, the separators
0x1c–0x1f, SPACE, NEL 0x85 and NBSP 0xa0. -/
def isPySpace (c : Nat) : Bool :=
  c = 9 || c = 10 || c = 11 || c = 12 || c = 13 || c = 28 || c = 29 || c = 30 ||
  c = 31 || c = 32 || c = 133 || c = 160

/-- Split at the first occurrence of `sep`: the elements before it and the
elements after it, or `none` when `sep` does not occur.  Shared helper for
Python's `partition`/`split`. -/
def splitFirst (sep : Nat) : List Nat → Option (List Nat × List Nat)
  | [] => none
  | c :: rest =>
    if c = sep then some ([], rest)
    else (splitFirst sep rest).map fun p => (c :: p.1, p.2)

/-- Python `s.split(sep, maxsplit)` with a single-character separator: at most
`maxsplit` splits, empty fields kept. -/
def pysplit (sep : Nat) : List Nat → Nat → List (List Nat)
  | s, 0 => [s]
  | s, maxsplit + 1 =>
    match splitFirst sep s with
    | none => [s]
    | some (a, b) => a :: pysplit sep b maxsplit

/-- Accumulator-passing worker for `pysplitAll`. -/
def pysplitAllAux (sep : Nat) : List Nat → List Nat → List (List Nat)
  | cur, [] => [cur.reverse]
  | cur, c :: rest =>
    if c = sep then cur.reverse :: pysplitAllAux sep [] rest
    else pysplitAllAux sep (c :: cur) rest

/-- Python `s.split(sep)` with no `maxsplit` bound: split at every
occurrence of `sep`, empty fields kept. -/
def pysplitAll (sep : Nat) (s : List Nat) : List (List Nat) := pysplitAllAux sep [] s

/-- Python `data.rstrip(b'\r')`: drop every trailing CR. -/
def rstripCR (l : List Nat) : List Nat := (l.reverse.dropWhile fun c => c = 13).reverse

/-- Python `s.strip()`: remove leading and trailing whitespace. -/
def pystrip (s : PyStr) : PyStr :=
  ((s.dropWhile isPySpace).reverse.dropWhile isPySpace).reverse

/-- Digit-sequence worker for `pyint`: consumes decimal digits, allowing a
single underscore only between two digits (Python's numeric-literal rule). -/
def pyDigitsAux : Nat → List Nat → Option Nat
  | acc, [] => some acc
  | acc, c :: rest =>
    if 48 ≤ c ∧ c ≤ 57 then pyDigitsAux (acc * 10 + (c - 48)) rest
    else if c = 95 then
      match rest with
      | [] => none
      | d :: _ => if 48 ≤ d ∧ d ≤ 57 then pyDigitsAux acc rest else none
    else none

/-- Unsigned decimal digit string (at least one digit, underscores only
between digits), as used by Python `int`. -/
def pyParseDigits : List Nat → Option Nat
  | [] => none
  | c :: rest => if 48 ≤ c ∧ c ≤ 57 then pyDigitsAux (c - 48) rest else none

/-- Python `int(s)` on a decimal string: surrounding whitespace allowed, one
optional sign, then decimal digits; `none` models the `ValueError` raised on
any other input. -/
def pyint (s : PyStr) : Option Int :=
  match pystrip s with
  | 43 :: rest => (pyParseDigits rest).map fun n => (n : Int)
  | 45 :: rest => (pyParseDigits rest).map fun n => -(n : Int)
  | t => (pyParseDigits t).map fun n => (n : Int)

/-- The two message kinds of the proxy (`MessageType` in the source). -/
inductive MessageType
  | REQUEST
  | RESPONSE
deriving DecidableEq, Repr

/-- One parsed header: the substrings around the first colon, each trimmed of
surrounding whitespace (`get_header_response` in the source). -/
structure Header where
  name : PyStr
  value : PyStr
deriving DecidableEq, Repr

/-- The message dictionary built by `parse_message`.  The Python dict for a
REQUEST has no `status-code`/`status-text` keys and the dict for a RESPONSE
has no `method`/`uri` keys; absent keys are modelled as the empty string. -/
structure Message where
  type : MessageType
  method : PyStr := []
  uri : PyStr := []
  version : PyStr := []
  statusCode : PyStr := []
  statusText : PyStr := []
  contentLength : Int := 0
  referer : PyStr := []
  userAgent : PyStr := []
  body : Bytes := []
  headers : List Header := []
deriving DecidableEq, Repr

/-- Embeds `parse_line` of `http-proxy.py`: partition the buffer at the first
LF; with no LF, return `(None, data)` with the buffer untouched; otherwise
the line is everything before the LF with every trailing CR stripped,
decoded as Latin-1 (the identity here), and the remainder is the bytes after
the LF — `None` (modelled as `Option.none` in the second component) when the
LF was the buffer's last byte, never an empty byte string in that case. -/
def parse_line (data : Bytes) : Option PyStr × Option Bytes :=
  match splitFirst 10 data with
  | none => (none, some data)
  | some (before, after) =>
    let fin_line := rstripCR before
    if after = [] then (some fin_line, none) else (some fin_line, some after)

/-- Embeds `get_header_response`: split at the first colon; `None` when there
is no colon, else the name/value pair with both sides stripped. -/
def get_header_response (data : PyStr) : Option Header :=
  match splitFirst 58 data with
  | none => none
  | some (a, b) => some { name := pystrip a, value := pystrip b }

/-- The header name `Content-Length` (compared case-sensitively). -/
def CLname : PyStr := strLit "Content-Length"

/-- The header name `Referer`. -/
def RefName : PyStr := strLit "Referer"

/-- The header name `User-Agent`. -/
def UAName : PyStr := strLit "User-Agent"

/-- Default of `message['Referer']` set by `parse_message`: the two-character
string `"- "` (a dash followed by a space), exactly as in the source. -/
def refererDefault : PyStr := strLit "- "

/-- Default of `message['User-Agent']` set by `parse_message`: `"-"`. -/
def userAgentDefault : PyStr := strLit "-"

/-- The fixed version string `"HTTP/1.0"` used by `build_message`. -/
def HTTP10 : PyStr := strLit "HTTP/1.0"

/-- Start-line phase of `parse_message` (lines 88–104 of the source): pull the
first line (`None` line, i.e. no LF yet, raises and is modelled as `none`),
split it with `line.split(' ', 2)`, require exactly three fields, populate
the kind-specific fields and the defaults Content-Length `0`,
Referer `"- "`, User-Agent `"-"`, empty body. -/
def startPhase (data : Bytes) (t : MessageType) : Option (Message × Option Bytes) :=
  match parse_line data with
  | (none, _) => none
  | (some line, unparsed) =>
    match pysplit 32 line 2 with
    | [f0, f1, f2] =>
      match t with
      | .REQUEST =>
        some ({ type := t, method := f0, uri := f1, version := f2,
                contentLength := 0, referer := refererDefault,
                userAgent := userAgentDefault, body := [], headers := [] }, unparsed)
      | .RESPONSE =>
        some ({ type := t, version := f0, statusCode := f1, statusText := f2,
                contentLength := 0, referer := refererDefault,
                userAgent := userAgentDefault, body := [], headers := [] }, unparsed)
    | _ => none

/-- In-place update of the last collected header's value (header folding:
`last_header['value'] = last_header['value'] + line`). -/
def updLast : List Header → PyStr → List Header
  | [], _ => []
  | [h], line => [{ h with value := h.value ++ line }]
  | h :: rest, line => h :: updLast rest line

/-- Mirroring of a newly appended header into the derived scalar fields
(lines 117–122 of the source); a non-numeric `Content-Length` value raises
`ValueError`, modelled as `none`. -/
def mirrorHeader (m : Message) (h : Header) : Option Message :=
  if h.name = CLname then
    match pyint h.value with
    | none => none
    | some n => some { m with contentLength := n }
  else if h.name = RefName then some { m with referer := h.value }
  else if h.name = UAName then some { m with userAgent := h.value }
  else some m

/-- Header-loop phase of `parse_message` (lines 105–123 of the source),
carried out on the buffer left after the start line.  Each iteration pulls
one line: calling `parse_line` on Python `None` raises (`none` input), a
`None` line (no LF in the buffer) raises inside the loop, an empty line ends
the loop, a line starting with space or tab is folded into the last header
when at least one header was collected, and otherwise the line must split at
a colon into a header, which is appended and mirrored.  The fuel argument
only bounds the recursion; every iteration consumes at least one byte of the
buffer, so `parse_message`'s fuel `data.length + 1` is never exhausted. -/
def headerPhase : Nat → Message → List Header → Option Bytes →
    Option (Message × List Header × Option Bytes)
  | 0, _, _, _ => none
  | _ + 1, _, _, none => none
  | fuel + 1, m, headerz, some u =>
    match parse_line u with
    | (none, _) => none
    | (some line, u2) =>
      if line = [] then some (m, headerz, u2)
      else if headerz ≠ [] ∧ (line.head? = some 32 ∨ line.head? = some 9) then
        headerPhase fuel m (updLast headerz line) u2
      else
        match get_header_response line with
        | none => none
        | some h =>
          match mirrorHeader m h with
          | none => none
          | some m2 => headerPhase fuel m2 (headerz ++ [h]) u2

/-- Body phase of `parse_message` (lines 124–132 of the source).  With
`Content-Length > 0`: `len()` of a `None` remainder raises (`TypeError`),
fewer remaining bytes than the declared length raise, more remaining bytes
set `unparsed = unparsed[:length]` and then the body to that same slice —
so the returned leftover IS the body slice — and exactly equal remaining
bytes set the body to the whole remainder (again also returned as the
leftover).  With `Content-Length <= 0` nothing is consumed or checked. -/
def bodyPhase (m : Message) (unparsed : Option Bytes) : Option (Message × Option Bytes) :=
  if 0 < m.contentLength then
    match unparsed with
    | none => none
    | some u =>
      if (u.length : Int) < m.contentLength then none
      else if m.contentLength < (u.length : Int) then
        some ({ m with body := u.take m.contentLength.toNat },
              some (u.take m.contentLength.toNat))
      else some ({ m with body := u }, some u)
  else some (m, unparsed)

/-- The `try`-block of `parse_message`: the three phases in sequence, with
`message['headers'] = headerz` assigned at the very end (line 133).  Any
raised exception anywhere in the block is modelled as `none`. -/
def parse_attempt (data : Bytes) (t : MessageType) : Option (Message × Option Bytes) :=
  match startPhase data t with
  | none => none
  | some (m, u1) =>
    match headerPhase (data.length + 1) m [] u1 with
    | none => none
    | some (m2, hs, u2) =>
      match bodyPhase m2 u2 with
      | none => none
      | some (m3, left) => some ({ m3 with headers := hs }, left)

/-- Embeds `parse_message` of `http-proxy.py`: run the `try`-block; the
`except` clause turns every failure into `(None, data)` with the original
input buffer returned unchanged. -/
def parse_message (data : Bytes) (t : MessageType) : Option Message × Option Bytes :=
  match parse_attempt data t with
  | none => (none, some data)
  | some (m, left) => (some m, left)

/-- The serialized header block: `'{}\r\n'.format(name + ": " + value)` per
header, in order. -/
def buildHeaderBlock : List Header → PyStr
  | [] => []
  | h :: rest => (h.name ++ strLit ": " ++ h.value ++ [13, 10]) ++ buildHeaderBlock rest

/-- Latin-1 encoding of a header block: the identity on code points below
256 (Python raises `UnicodeEncodeError` above that; `build_message` is only
ever applied here to messages whose strings are Latin-1-representable). -/
def encodeLatin1 (s : PyStr) : Bytes := s

/-- Embeds `build_message` of `http-proxy.py`: requests serialize as
`"{method} {uri} HTTP/1.0\r\n"` (the version is deliberately replaced),
responses as `"{version} {status-code} {status-text}\r\n"`; then each header
as `"{name}: {value}\r\n"`, a blank line, Latin-1 encoding, and the body
appended unmodified when non-empty. -/
def build_message (message : Message) : Bytes :=
  let message_header : PyStr :=
    match message.type with
    | .REQUEST => message.method ++ [32] ++ message.uri ++ [32] ++ HTTP10 ++ [13, 10]
    | .RESPONSE =>
        message.version ++ [32] ++ message.statusCode ++ [32] ++ message.statusText ++ [13, 10]
  let data : PyStr := message_header ++ buildHeaderBlock message.headers ++ [13, 10]
  let req : Bytes := encodeLatin1 data
  if 0 < message.body.length then req ++ message.body else req

/-- The derived scalar fields (Content-Length, Referer, User-Agent) produced
by replaying `parse_message`'s mirroring over a header list, starting from
given current values; `none` when some `Content-Length` value fails
`int()`. -/
def scalarsOfHeaders : Int → PyStr → PyStr → List Header → Option (Int × PyStr × PyStr)
  | cl, r, ua, [] => some (cl, r, ua)
  | cl, r, ua, h :: t =>
    if h.name = CLname then
      match pyint h.value with
      | none => none
      | some n => scalarsOfHeaders n r ua t
    else if h.name = RefName then scalarsOfHeaders cl h.value ua t
    else if h.name = UAName then scalarsOfHeaders cl r h.value t
    else scalarsOfHeaders cl r ua t

/-- A string that `str.strip()` leaves unchanged: no leading and no trailing
whitespace. -/
def strippedStr (s : PyStr) : Prop :=
  s.dropWhile isPySpace = s ∧ s.reverse.dropWhile isPySpace = s.reverse

instance (s : PyStr) : Decidable (strippedStr s) := by
  unfold strippedStr
  infer_instance

/-- A string that survives one serialize/parse cycle of the line framing:
free of LF and CR and Latin-1-encodable. -/
def goodField (s : PyStr) : Prop := 10 ∉ s ∧ 13 ∉ s ∧ ∀ c ∈ s, c < 256

/-- A start-line token: a good field with no space, so that
`line.split(' ', 2)` recovers it. -/
def goodTok (s : PyStr) : Prop := goodField s ∧ 32 ∉ s

/-- A header name that round-trips: a good field with no colon, stripped. -/
def goodName (s : PyStr) : Prop := goodField s ∧ 58 ∉ s ∧ strippedStr s

/-- A header value that round-trips: a good field, stripped. -/
def goodValue (s : PyStr) : Prop := goodField s ∧ strippedStr s

/-- Well-formed messages, for the round-trip property: the start-line fields
are representable on the wire and recoverable by the start-line split (for a
REQUEST the version is serialized as the constant `HTTP/1.0`, so it is
unconstrained); the fields of the absent dict keys are empty; every header
name/value survives `get_header_response`; the derived scalar fields mirror
the headers exactly as `parse_message` computes them from its defaults; and
the body length equals the declared Content-Length, or the body is empty
with Content-Length 0. -/
def Wellformed (M : Message) : Prop :=
  (M.type = .REQUEST → goodTok M.method ∧ goodTok M.uri ∧
    M.statusCode = [] ∧ M.statusText = []) ∧
  (M.type = .RESPONSE → goodTok M.version ∧ goodTok M.statusCode ∧
    goodField M.statusText ∧ M.method = [] ∧ M.uri = []) ∧
  (∀ h ∈ M.headers, goodName h.name ∧ goodValue h.value) ∧
  scalarsOfHeaders 0 refererDefault userAgentDefault M.headers =
    some (M.contentLength, M.referer, M.userAgent) ∧
  ((M.contentLength = 0 ∧ M.body = []) ∨
    (0 < M.contentLength ∧ (M.body.length : Int) = M.contentLength))

instance (s : PyStr) : Decidable (goodField s) := by
  unfold goodField
  infer_instance

instance (s : PyStr) : Decidable (goodTok s) := by
  unfold goodTok
  infer_instance

instance (s : PyStr) : Decidable (goodName s) := by
  unfold goodName
  infer_instance

instance (s : PyStr) : Decidable (goodValue s) := by
  unfold goodValue
  infer_instance

instance (M : Message) : Decidable (Wellformed M) := by
  unfold Wellformed
  infer_instance

/-- The message the round trip is expected to reproduce: the original, with
the version forced to `HTTP/1.0` for a REQUEST (which `build_message`
serializes with that constant version). -/
def roundtripExpected (M : Message) : Message :=
  match M.type with
  | .REQUEST => { M with version := HTTP10 }
  | .RESPONSE => M

/-- Python exceptions that `parse_uri` can raise. -/
inductive PyErr
  | indexError
  | valueError
  | lookupError
deriving DecidableEq, Repr

/-- ASCII letter test, for URL scheme recognition. -/
def isAsciiAlpha (c : Nat) : Bool := (65 ≤ c && c ≤ 90) || (97 ≤ c && c ≤ 122)

/-- Characters CPython's `urllib.parse` accepts inside a URL scheme:
letters, digits, `+`, `-` and `.`. -/
def isSchemeChar (c : Nat) : Bool :=
  isAsciiAlpha c || (48 ≤ c && c ≤ 57) || c = 43 || c = 45 || c = 46

/-- ASCII lowercasing of one code point (`str.lower` on the characters that
appear in schemes and hostnames). -/
def lowerChar (c : Nat) : Nat := if 65 ≤ c ∧ c ≤ 90 then c + 32 else c

/-- Models the scheme recognition of CPython's `urllib.parse.urlsplit`: a
scheme is a non-empty prefix before the first `:` that starts with a letter
and consists of scheme characters; it is split off lowercased, else the URL
is left whole with an empty scheme. -/
def splitScheme (uri : PyStr) : PyStr × PyStr :=
  match splitFirst 58 uri with
  | none => ([], uri)
  | some (pre, post) =>
    match pre with
    | [] => ([], uri)
    | c :: _ =>
      if isAsciiAlpha c ∧ pre.all isSchemeChar then (pre.map lowerChar, post)
      else ([], uri)

/-- Models the netloc extraction of `urllib.parse.urlsplit`: present only
when the remainder after the scheme starts with `//`, and then runs up to
the next `/`, `?` or `#`. -/
def urlparseNetloc (rest : PyStr) : PyStr :=
  match rest with
  | 47 :: 47 :: r => r.takeWhile fun c => c ≠ 47 ∧ c ≠ 63 ∧ c ≠ 35
  | _ => []

/-- Models the `hostname` attribute of `urllib.parse.urlparse`'s result: from
the netloc, drop the userinfo (everything up to the last `@`), read a
bracketed IPv6 literal or everything before the first `:`, lowercase it, and
yield `None` when the result is empty — in particular for every URL with no
`//`, such as the schemeless `host:port` form. -/
def urlparseHostname (uri : PyStr) : Option PyStr :=
  let netloc := urlparseNetloc (splitScheme uri).2
  let hostinfo := (netloc.reverse.takeWhile fun c => c ≠ 64).reverse
  let host : PyStr :=
    match hostinfo with
    | 91 :: r => r.takeWhile fun c => c ≠ 93
    | _ => hostinfo.takeWhile fun c => c ≠ 58
  if host = [] then none else some (host.map lowerChar)

/-- The raw port substring of the netloc: after the closing bracket of an
IPv6 literal, or after the first `:` otherwise; empty when absent. -/
def urlparsePortStr (uri : PyStr) : PyStr :=
  let netloc := urlparseNetloc (splitScheme uri).2
  let hostinfo := (netloc.reverse.takeWhile fun c => c ≠ 64).reverse
  match hostinfo with
  | 91 :: r =>
    (match splitFirst 93 r with
     | none => []
     | some (_, afterBr) =>
       match splitFirst 58 afterBr with
       | none => []
       | some (_, p) => p)
  | _ =>
    match splitFirst 58 hostinfo with
    | none => []
    | some (_, p) => p

/-- Models the `port` attribute of `urllib.parse.urlparse`'s result: `None`
when absent or empty, the decimal value when it is all digits in 0..65535,
and a raised `ValueError` (the `Except.error`) otherwise. -/
def urlparsePort (uri : PyStr) : Except PyErr (Option Int) :=
  let p := urlparsePortStr uri
  if p = [] then .ok none
  else
    match pyParseDigits p with
    | none => .error .valueError
    | some n => if n ≤ 65535 then .ok (some (n : Int)) else .error .valueError

/-- Models `socket.getservbyname` for the well-known schemes in the system
services table; an unknown service raises (`OSError`), modelled as a lookup
error. -/
def getservbyname (scheme : PyStr) : Except PyErr Int :=
  if scheme = strLit "http" then .ok 80
  else if scheme = strLit "https" then .ok 443
  else if scheme = strLit "ftp" then .ok 21
  else .error .lookupError

/-- Embeds `parse_uri` of `http-proxy.py`.  When `urlparse` recovers a host:
the explicit port if present and non-zero, else `getservbyname(scheme)`.
When no host is recovered (the schemeless `host:port` form): split the whole
target at every `:`; the host is the part before the first colon; then the
source tests `len(uri) > 1` — the length of the target string, not the
number of split parts — so with a target longer than one character it always
indexes `uri_parts[1]`, raising `IndexError` when the target has no colon;
only a target of length at most 1 falls into the `port = 80` default. -/
def parse_uri (uri : PyStr) : Except PyErr (PyStr × Int) :=
  match urlparseHostname uri with
  | some host =>
    match urlparsePort uri with
    | .error e => .error e
    | .ok portOpt =>
      match portOpt with
      | some p =>
        if p = 0 then
          match getservbyname (splitScheme uri).1 with
          | .error e => .error e
          | .ok port => .ok (host, port)
        else .ok (host, p)
      | none =>
        match getservbyname (splitScheme uri).1 with
        | .error e => .error e
        | .ok port => .ok (host, port)
  | none =>
    let uri_parts := pysplitAll 58 uri
    let host := uri_parts.headD []
    if 1 < uri.length then
      match uri_parts[1]? with
      | none => .error .indexError
      | some p1 =>
        match pyint p1 with
        | none => .error .valueError
        | some n => .ok (host, n)
    else .ok (host, 80)

/-! ## Basic lemmas about the splitting helpers -/

theorem splitFirst_of_not_mem {sep : Nat} : ∀ {l : List Nat}, sep ∉ l → splitFirst sep l = none
  | [], _ => rfl
  | c :: rest, h => by
    have hc : c ≠ sep := fun hc => h (hc ▸ List.mem_cons_self c rest)
    have hr : sep ∉ rest := fun hr => h (List.mem_cons_of_mem c hr)
    simp [splitFirst, hc, splitFirst_of_not_mem hr]

theorem splitFirst_append {sep : Nat} :
    ∀ {a : List Nat} (b : List Nat), sep ∉ a → splitFirst sep (a ++ sep :: b) = some (a, b)
  | [], b, _ => by simp [splitFirst]
  | c :: rest, b, h => by
    have hc : c ≠ sep := fun hc => h (hc ▸ List.mem_cons_self c rest)
    have hr : sep ∉ rest := fun hr => h (List.mem_cons_of_mem c hr)
    simp [splitFirst, hc, splitFirst_append b hr]

theorem dropWhile_eq_self_of_all {p : Nat → Bool} :
    ∀ {l : List Nat}, (∀ x ∈ l, p x = false) → l.dropWhile p = l
  | [], _ => rfl
  | c :: rest, h => by
    simp [List.dropWhile_cons, h c (List.mem_cons_self c rest)]

theorem rstripCR_append_cr {s : List Nat} (h : 13 ∉ s) : rstripCR (s ++ [13]) = s := by
  unfold rstripCR
  rw [List.reverse_append]
  have hrev : ∀ x ∈ s.reverse, (fun c => decide (c = 13)) x = false := by
    intro x hx
    simp only [List.mem_reverse] at hx
    simp only [decide_eq_false_iff_not]
    intro hx13
    exact h (hx13 ▸ hx)
  simp [List.dropWhile_cons, dropWhile_eq_self_of_all hrev]

theorem parse_line_crlf {s : PyStr} (r : Bytes) (h10 : 10 ∉ s) (h13 : 13 ∉ s) :
    parse_line (s ++ [13, 10] ++ r) = (some s, if r = [] then none else some r) := by
  have harr : s ++ [13, 10] ++ r = (s ++ [13]) ++ 10 :: r := by simp
  have hnm : 10 ∉ s ++ [13] := by
    intro hmem
    rcases List.mem_append.1 hmem with h' | h'
    · exact h10 h'
    · simp at h'
  rw [parse_line, harr, splitFirst_append r hnm]
  by_cases hr : r = [] <;> simp [hr, rstripCR_append_cr h13]

theorem pysplit_succ (sep : Nat) (s : List Nat) (m : Nat) :
    pysplit sep s (m + 1) = match splitFirst sep s with
      | none => [s]
      | some (a, b) => a :: pysplit sep b m := rfl

theorem pysplit2_three {a b c : List Nat} (ha : 32 ∉ a) (hb : 32 ∉ b) :
    pysplit 32 (a ++ 32 :: (b ++ 32 :: c)) 2 = [a, b, c] := by
  have h1 : pysplit 32 (a ++ 32 :: (b ++ 32 :: c)) 2 = a :: pysplit 32 (b ++ 32 :: c) 1 := by
    rw [show (2 : Nat) = 1 + 1 from rfl, pysplit_succ, splitFirst_append _ ha]
  have h2 : pysplit 32 (b ++ 32 :: c) 1 = b :: pysplit 32 c 0 := by
    rw [show (1 : Nat) = 0 + 1 from rfl, pysplit_succ, splitFirst_append _ hb]
  rw [h1, h2]
  rfl

/-! ## Lemmas about stripping -/

theorem pystrip_eq_self {s : PyStr} (h : strippedStr s) : pystrip s = s := by
  unfold pystrip
  rw [h.1, h.2, List.reverse_reverse]

theorem pystrip_cons_space {v : PyStr} (h : strippedStr v) : pystrip (32 :: v) = v := by
  unfold pystrip
  have : List.dropWhile isPySpace (32 :: v) = List.dropWhile isPySpace v := by
    simp [List.dropWhile_cons, isPySpace]
  rw [this, h.1, h.2, List.reverse_reverse]

theorem get_header_built {n v : PyStr} (hn58 : 58 ∉ n) (hns : strippedStr n)
    (hvs : strippedStr v) :
    get_header_response (n ++ 58 :: 32 :: v) = some { name := n, value := v } := by
  rw [get_header_response, splitFirst_append (32 :: v) hn58]
  simp [pystrip_eq_self hns, pystrip_cons_space hvs]

theorem strippedStr_head_not_space {c : Nat} {t : PyStr} (h : strippedStr (c :: t)) :
    isPySpace c = false := by
  rcases h with ⟨h1, -⟩
  by_contra hcon
  have hc : isPySpace c = true := by
    cases hiso : isPySpace c
    · exact absurd hiso hcon
    · rfl
  rw [List.dropWhile_cons, hc] at h1
  simp only [if_true] at h1
  have hlen := congrArg List.length h1
  have hle := (List.dropWhile_sublist (l := t) isPySpace).length_le
  simp only [List.length_cons] at hlen
  omega

/-! ## Step equations and invariants of the parser phases -/

theorem headerPhase_succ (fuel : Nat) (m : Message) (headerz : List Header) (u : Bytes) :
    headerPhase (fuel + 1) m headerz (some u) =
      match parse_line u with
      | (none, _) => none
      | (some line, u2) =>
        if line = [] then some (m, headerz, u2)
        else if headerz ≠ [] ∧ (line.head? = some 32 ∨ line.head? = some 9) then
          headerPhase fuel m (updLast headerz line) u2
        else
          match get_header_response line with
          | none => none
          | some h =>
            match mirrorHeader m h with
            | none => none
            | some m2 => headerPhase fuel m2 (headerz ++ [h]) u2 := rfl

theorem updLast_names : ∀ (hs : List Header) (line : PyStr),
    (updLast hs line).map Header.name = hs.map Header.name
  | [], _ => rfl
  | [_], _ => rfl
  | h :: h' :: rest, line => by
    simp only [updLast, List.map_cons, List.cons.injEq, true_and]
    exact updLast_names (h' :: rest) line

theorem mirrorHeader_inv {m : Message} {h : Header} {m2 : Message}
    (heq : mirrorHeader m h = some m2) :
    m2.type = m.type ∧ m2.method = m.method ∧ m2.uri = m.uri ∧ m2.version = m.version ∧
    m2.statusCode = m.statusCode ∧ m2.statusText = m.statusText ∧ m2.body = m.body ∧
    m2.headers = m.headers ∧
    (h.name ≠ CLname → m2.contentLength = m.contentLength) ∧
    (h.name ≠ RefName → m2.referer = m.referer) ∧
    (h.name ≠ UAName → m2.userAgent = m.userAgent) := by
  unfold mirrorHeader at heq
  by_cases h1 : h.name = CLname
  · rw [if_pos h1] at heq
    cases hpi : pyint h.value with
    | none => rw [hpi] at heq; cases heq
    | some n =>
      rw [hpi] at heq
      obtain rfl := Option.some.inj heq
      exact ⟨rfl, rfl, rfl, rfl, rfl, rfl, rfl, rfl,
        fun hne => absurd h1 hne, fun _ => rfl, fun _ => rfl⟩
  · rw [if_neg h1] at heq
    by_cases h2 : h.name = RefName
    · rw [if_pos h2] at heq
      obtain rfl := Option.some.inj heq
      exact ⟨rfl, rfl, rfl, rfl, rfl, rfl, rfl, rfl,
        fun _ => rfl, fun hne => absurd h2 hne, fun _ => rfl⟩
    · rw [if_neg h2] at heq
      by_cases h3 : h.name = UAName
      · rw [if_pos h3] at heq
        obtain rfl := Option.some.inj heq
        exact ⟨rfl, rfl, rfl, rfl, rfl, rfl, rfl, rfl,
          fun _ => rfl, fun _ => rfl, fun hne => absurd h3 hne⟩
      · rw [if_neg h3] at heq
        obtain rfl := Option.some.inj heq
        exact ⟨rfl, rfl, rfl, rfl, rfl, rfl, rfl, rfl,
          fun _ => rfl, fun _ => rfl, fun _ => rfl⟩

theorem startPhase_inv {data : Bytes} {t : MessageType} {m0 : Message} {u1 : Option Bytes}
    (h : startPhase data t = some (m0, u1)) :
    m0.type = t ∧ m0.contentLength = 0 ∧ m0.referer = refererDefault ∧
    m0.userAgent = userAgentDefault ∧ m0.body = [] ∧ m0.headers = [] := by
  unfold startPhase at h
  split at h
  · cases h
  · split at h
    · split at h
      · obtain ⟨rfl, rfl⟩ := Prod.mk.injEq .. ▸ Option.some.inj h
        exact ⟨rfl, rfl, rfl, rfl, rfl, rfl⟩
      · obtain ⟨rfl, rfl⟩ := Prod.mk.injEq .. ▸ Option.some.inj h
        exact ⟨rfl, rfl, rfl, rfl, rfl, rfl⟩
    · cases h

theorem bodyPhase_inv {m : Message} {u : Option Bytes} {m3 : Message} {left : Option Bytes}
    (h : bodyPhase m u = some (m3, left)) :
    m3.type = m.type ∧ m3.method = m.method ∧ m3.uri = m.uri ∧ m3.version = m.version ∧
    m3.statusCode = m.statusCode ∧ m3.statusText = m.statusText ∧
    m3.contentLength = m.contentLength ∧ m3.referer = m.referer ∧
    m3.userAgent = m.userAgent ∧ m3.headers = m.headers ∧
    (m.contentLength ≤ 0 → m3 = m ∧ left = u) := by
  unfold bodyPhase at h
  split at h
  · next hpos =>
    split at h
    · cases h
    · split at h
      · cases h
      · split at h
        · obtain ⟨h1, h2⟩ := Prod.mk.injEq .. ▸ Option.some.inj h
          subst h1
          exact ⟨rfl, rfl, rfl, rfl, rfl, rfl, rfl, rfl, rfl, rfl, fun hle => absurd hpos (by omega)⟩
        · obtain ⟨h1, h2⟩ := Prod.mk.injEq .. ▸ Option.some.inj h
          subst h1
          exact ⟨rfl, rfl, rfl, rfl, rfl, rfl, rfl, rfl, rfl, rfl, fun hle => absurd hpos (by omega)⟩
  · obtain ⟨h1, h2⟩ := Prod.mk.injEq .. ▸ Option.some.inj h
    subst h1
    subst h2
    exact ⟨rfl, rfl, rfl, rfl, rfl, rfl, rfl, rfl, rfl, rfl, fun _ => ⟨rfl, rfl⟩⟩

theorem headerPhase_inv : ∀ (fuel : Nat) (m : Message) (hs : List Header) (u : Option Bytes)
    {m2 : Message} {hs2 : List Header} {u2 : Option Bytes},
    headerPhase fuel m hs u = some (m2, hs2, u2) →
    m2.type = m.type ∧ m2.method = m.method ∧ m2.uri = m.uri ∧ m2.version = m.version ∧
    m2.statusCode = m.statusCode ∧ m2.statusText = m.statusText ∧ m2.body = m.body ∧
    m2.headers = m.headers ∧
    ∃ ns, hs2.map Header.name = hs.map Header.name ++ ns ∧
      (CLname ∉ ns → m2.contentLength = m.contentLength) ∧
      (RefName ∉ ns → m2.referer = m.referer) ∧
      (UAName ∉ ns → m2.userAgent = m.userAgent)
  | 0, _, _, _, _, _, _, h => by cases h
  | _ + 1, _, _, none, _, _, _, h => by cases h
  | fuel + 1, m, hs, some u, m2, hs2, u2, h => by
    rw [headerPhase_succ] at h
    split at h
    · cases h
    · next line rest hpl =>
      split at h
      · have h' := Option.some.inj h
        obtain ⟨rfl, rfl, rfl⟩ : m = m2 ∧ hs = hs2 ∧ rest = u2 := by
          refine ⟨congrArg (fun p => p.1) h', ?_, ?_⟩
          · exact congrArg (fun p => p.2.1) h'
          · exact congrArg (fun p => p.2.2) h'
        exact ⟨rfl, rfl, rfl, rfl, rfl, rfl, rfl, rfl, [], by simp, fun _ => rfl,
          fun _ => rfl, fun _ => rfl⟩
      · split at h
        · have ih := headerPhase_inv fuel m (updLast hs line) rest h
          obtain ⟨i1, i2, i3, i4, i5, i6, i7, i8, ns, hns, hcl, href, hua⟩ := ih
          exact ⟨i1, i2, i3, i4, i5, i6, i7, i8, ns, by rw [hns, updLast_names], hcl, href, hua⟩
        · split at h
          · cases h
          · next hdr hget =>
            split at h
            · cases h
            · next m' hmir =>
              have ih := headerPhase_inv fuel m' (hs ++ [hdr]) rest h
              obtain ⟨i1, i2, i3, i4, i5, i6, i7, i8, ns', hns, hcl, href, hua⟩ := ih
              obtain ⟨j1, j2, j3, j4, j5, j6, j7, j8, jcl, jref, jua⟩ := mirrorHeader_inv hmir
              refine ⟨i1.trans j1, i2.trans j2, i3.trans j3, i4.trans j4, i5.trans j5,
                i6.trans j6, i7.trans j7, i8.trans j8, hdr.name :: ns', ?_, ?_, ?_, ?_⟩
              · rw [hns]
                simp
              · intro hn
                have hne : hdr.name ≠ CLname := fun hx => hn (hx ▸ List.mem_cons_self _ _)
                have hnin : CLname ∉ ns' := fun hx => hn (List.mem_cons_of_mem _ hx)
                exact (hcl hnin).trans (jcl hne)
              · intro hn
                have hne : hdr.name ≠ RefName := fun hx => hn (hx ▸ List.mem_cons_self _ _)
                have hnin : RefName ∉ ns' := fun hx => hn (List.mem_cons_of_mem _ hx)
                exact (href hnin).trans (jref hne)
              · intro hn
                have hne : hdr.name ≠ UAName := fun hx => hn (hx ▸ List.mem_cons_self _ _)
                have hnin : UAName ∉ ns' := fun hx => hn (List.mem_cons_of_mem _ hx)
                exact (hua hnin).trans (jua hne)

theorem parse_attempt_some {data : Bytes} {t : MessageType} {m : Message} {left : Option Bytes}
    (h : parse_attempt data t = some (m, left)) :
    ∃ m0 u1 m2 hs u2 m3,
      startPhase data t = some (m0, u1) ∧
      headerPhase (data.length + 1) m0 [] u1 = some (m2, hs, u2) ∧
      bodyPhase m2 u2 = some (m3, left) ∧ m = { m3 with headers := hs } := by
  unfold parse_attempt at h
  split at h
  · cases h
  · next m0 u1 hstart =>
    split at h
    · cases h
    · next m2 hs u2 hhdr =>
      split at h
      · cases h
      · next m3 lf hbody =>
        have h' := Option.some.inj h
        have hm : { m3 with headers := hs } = m := congrArg (fun p => p.1) h'
        have hl : lf = left := congrArg (fun p => p.2) h'
        exact ⟨m0, u1, m2, hs, u2, m3, hstart, hhdr, hl ▸ hbody, hm.symm⟩

theorem parse_message_some {data : Bytes} {t : MessageType} {m : Message} {left : Option Bytes}
    (h : parse_message data t = (some m, left)) :
    ∃ m0 u1 m2 hs u2 m3,
      startPhase data t = some (m0, u1) ∧
      headerPhase (data.length + 1) m0 [] u1 = some (m2, hs, u2) ∧
      bodyPhase m2 u2 = some (m3, left) ∧ m = { m3 with headers := hs } := by
  unfold parse_message at h
  split at h
  · have : (none : Option Message) = some m := congrArg (fun p => p.1) h
    cases this
  · next mp lp heq =>
    have h1 : some mp = some m := congrArg (fun q => q.1) h
    have h2 : lp = left := congrArg (fun q => q.2) h
    obtain rfl := Option.some.inj h1
    exact parse_attempt_some (h2 ▸ heq)

/-! ## Claim theorems -/

/-- Claim C2: for a schemeless request target the source intends to split on
`:` and default the port to 80 when there is no second part, and indeed
`parse_uri("example.com:8080")` returns `("example.com", 8080)`; but the
source tests `len(uri) > 1` — the length of the target string — instead of
`len(uri_parts) > 1`, so `parse_uri("example.com")` indexes the missing
second split part and raises `IndexError` instead of returning
`("example.com", 80)`. -/
theorem c2_parse_uri_schemeless :
    parse_uri (strLit "example.com:8080") = .ok (strLit "example.com", 8080) ∧
      parse_uri (strLit "example.com") = .error .indexError :=
  ⟨rfl, rfl⟩

/-- Claim C3 (confirmed): for every input buffer and message type, whenever
`parse_message` fails — its first component is absent — it returns the
original input buffer bit-for-bit unchanged as the second component: every
internal failure funnels through the `except` clause, which returns
`(None, data)`, so re-invoking the parse after appending more bytes is
always safe. -/
theorem c3_failure_returns_original_buffer (data : Bytes) (t : MessageType)
    (hfail : (parse_message data t).1 = none) :
    parse_message data t = (none, some data) := by
  cases h : parse_attempt data t with
  | none =>
    unfold parse_message
    rw [h]
  | some p =>
    obtain ⟨pm, pl⟩ := p
    have hps : parse_message data t = (some pm, pl) := by
      unfold parse_message
      rw [h]
    rw [hps] at hfail
    cases hfail

/-- Witness for C3 at a concrete failing input: a start line with only two
space-separated fields. -/
theorem c3_witness :
    parse_message (strLit "GET /\r\n\r\n") .REQUEST =
      (none, some (strLit "GET /\r\n\r\n")) :=
  c3_failure_returns_original_buffer (strLit "GET /\r\n\r\n") .REQUEST (by decide)

/-- Claim C10 (confirmed): `parse_message` is total at its public interface:
for every byte buffer and message type it returns a pair — either a parsed
`Message` with a leftover, or absent together with the original buffer —
and never anything else, because every internal failure (missing line,
malformed start line, missing colon, non-numeric Content-Length, `len()` of
an absent leftover, insufficient body bytes) is modelled as the `none`
result of the `try`-block, caught by the enclosing handler. -/
theorem c10_parse_message_total (data : Bytes) (t : MessageType) :
    (∃ m left, parse_message data t = (some m, left)) ∨
      parse_message data t = (none, some data) := by
  cases h : parse_attempt data t with
  | none =>
    right
    unfold parse_message
    rw [h]
  | some p =>
    obtain ⟨pm, pl⟩ := p
    left
    exact ⟨pm, pl, by unfold parse_message; rw [h]⟩

/-- Claim C8 (confirmed): for every message returned by `parse_message`, a
derived content length that is not positive — including a negative value
parsed from a Content-Length header — implies the body is empty; and the
body phase can never fail when the content length is not positive, i.e. the
parser only ever fails for lack of body bytes when `content_length > 0`. -/
theorem c8_nonpositive_content_length :
    (∀ (data : Bytes) (t : MessageType) (m : Message) (left : Option Bytes),
        parse_message data t = (some m, left) → m.contentLength ≤ 0 → m.body = []) ∧
    (∀ (m : Message) (u : Option Bytes), m.contentLength ≤ 0 → bodyPhase m u = some (m, u)) := by
  constructor
  · intro data t m left hp hcl
    obtain ⟨m0, u1, m2, hs, u2, m3, hstart, hhdr, hbody, hm⟩ := parse_message_some hp
    obtain ⟨-, hcl0, -, -, hbody0, -⟩ := startPhase_inv hstart
    obtain ⟨-, -, -, -, -, -, hb2, -, -⟩ := headerPhase_inv _ _ _ _ hhdr
    obtain ⟨-, -, -, -, -, -, bcl, -, -, -, bid⟩ := bodyPhase_inv hbody
    have hmcl : m.contentLength = m3.contentLength := by rw [hm]
    have hcl2 : m2.contentLength ≤ 0 := by rw [← bcl, ← hmcl]; exact hcl
    obtain ⟨hm3eq, -⟩ := bid hcl2
    have hmb : m.body = m3.body := by rw [hm]
    rw [hmb, hm3eq, hb2, hbody0]
  · intro m u hcl
    unfold bodyPhase
    rw [if_neg (by omega)]

/-- Witness for C8 at a concrete input with `Content-Length: -5`: the parse
succeeds, the content length is negative, and the body is empty. -/
theorem c8_witness :
    ({ type := MessageType.RESPONSE, method := [], uri := [],
       version := strLit "HTTP/1.0", statusCode := strLit "200", statusText := strLit "OK",
       contentLength := -5, referer := refererDefault, userAgent := userAgentDefault,
       body := [], headers := [{ name := CLname, value := strLit "-5" }] } : Message).body =
      ([] : Bytes) ∧
    bodyPhase { type := MessageType.RESPONSE, version := strLit "HTTP/1.0",
                statusCode := strLit "200", statusText := strLit "OK", contentLength := -5,
                referer := refererDefault, userAgent := userAgentDefault } none =
      some ({ type := MessageType.RESPONSE, version := strLit "HTTP/1.0",
              statusCode := strLit "200", statusText := strLit "OK", contentLength := -5,
              referer := refererDefault, userAgent := userAgentDefault }, none) :=
  ⟨c8_nonpositive_content_length.1
      (strLit "HTTP/1.0 200 OK\r\nContent-Length: -5\r\n\r\n") .RESPONSE _ none
      (by decide) (by decide),
   c8_nonpositive_content_length.2 _ none (by decide)⟩

/-- Claim C7 counterexample: parsing a message with no headers at all
succeeds, and its Referer field is the two-character default `"- "` (dash
followed by a space) set on line 102 of the source — not `"-"` as the claim
states. -/
theorem c7_referer_default_cex :
    parse_message (strLit "GET / HTTP/1.0\r\n\r\n") .REQUEST =
      (some { type := .REQUEST, method := strLit "GET", uri := strLit "/",
              version := strLit "HTTP/1.0", statusCode := [], statusText := [],
              contentLength := 0, referer := strLit "- ", userAgent := strLit "-",
              body := [], headers := [] }, none) ∧
      strLit "- " ≠ strLit "-" :=
  ⟨by decide, by decide⟩

/-- Claim C7 as amended (the Referer default is `"- "`, dash plus space, not
`"-"`): for every successfully parsed message, if the collected headers omit
Content-Length then the derived content length is 0 and the body is empty;
if they omit Referer the derived Referer is exactly `"- "`; and if they omit
User-Agent the derived User-Agent is exactly `"-"`. -/
theorem c7_derived_defaults (data : Bytes) (t : MessageType) (m : Message)
    (left : Option Bytes) (hp : parse_message data t = (some m, left)) :
    (CLname ∉ m.headers.map Header.name → m.contentLength = 0 ∧ m.body = []) ∧
    (RefName ∉ m.headers.map Header.name → m.referer = refererDefault) ∧
    (UAName ∉ m.headers.map Header.name → m.userAgent = userAgentDefault) := by
  obtain ⟨m0, u1, m2, hs, u2, m3, hstart, hhdr, hbody, hm⟩ := parse_message_some hp
  obtain ⟨-, hcl0, href0, hua0, hbody0, -⟩ := startPhase_inv hstart
  obtain ⟨-, -, -, -, -, -, hb2, -, ns, hns, hcl2, href2, hua2⟩ := headerPhase_inv _ _ _ _ hhdr
  obtain ⟨-, -, -, -, -, -, bcl, bref, bua, -, bid⟩ := bodyPhase_inv hbody
  have hmh : m.headers = hs := by rw [hm]
  simp only [List.map_nil, List.nil_append] at hns
  refine ⟨fun hnot => ?_, fun hnot => ?_, fun hnot => ?_⟩
  · rw [hmh, hns] at hnot
    have h2 : m2.contentLength = 0 := (hcl2 hnot).trans hcl0
    have hmcl : m.contentLength = m3.contentLength := by rw [hm]
    obtain ⟨hm3eq, -⟩ := bid (le_of_eq h2)
    have hmb : m.body = m3.body := by rw [hm]
    exact ⟨by rw [hmcl, bcl, h2], by rw [hmb, hm3eq, hb2, hbody0]⟩
  · rw [hmh, hns] at hnot
    have : m.referer = m3.referer := by rw [hm]
    rw [this, bref, href2 hnot, href0]
  · rw [hmh, hns] at hnot
    have : m.userAgent = m3.userAgent := by rw [hm]
    rw [this, bua, hua2 hnot, hua0]

/-- Witness for the amended C7 at the concrete header-free request. -/
theorem c7_witness :
    (({ type := .REQUEST, method := strLit "GET", uri := strLit "/",
          version := strLit "HTTP/1.0", referer := strLit "- ",
          userAgent := strLit "-" } : Message).contentLength = 0 ∧
      ({ type := .REQUEST, method := strLit "GET", uri := strLit "/",
           version := strLit "HTTP/1.0", referer := strLit "- ",
           userAgent := strLit "-" } : Message).body = []) ∧
    ({ type := .REQUEST, method := strLit "GET", uri := strLit "/",
         version := strLit "HTTP/1.0", referer := strLit "- ",
         userAgent := strLit "-" } : Message).referer = refererDefault ∧
    ({ type := .REQUEST, method := strLit "GET", uri := strLit "/",
         version := strLit "HTTP/1.0", referer := strLit "- ",
         userAgent := strLit "-" } : Message).userAgent = userAgentDefault := by
  have h := c7_derived_defaults (strLit "GET / HTTP/1.0\r\n\r\n") .REQUEST
    { type := .REQUEST, method := strLit "GET", uri := strLit "/",
      version := strLit "HTTP/1.0", referer := strLit "- ", userAgent := strLit "-" }
    none (by decide)
  exact ⟨h.1 (by decide), h.2.1 (by decide), h.2.2 (by decide)⟩

/-- Claim C5 counterexample: the start line `GET / HTTP/1.0 extra` has four
space-separated fields, yet `parse_message` accepts it — `line.split(' ', 2)`
caps the split at three fields, leaving `HTTP/1.0 extra` as the version — so
a start line with more than three whitespace-separated fields is not
rejected. -/
theorem c5_four_fields_accepted_cex :
    parse_message (strLit "GET / HTTP/1.0 extra\r\n\r\n") .REQUEST =
      (some { type := .REQUEST, method := strLit "GET", uri := strLit "/",
              version := strLit "HTTP/1.0 extra", statusCode := [], statusText := [],
              contentLength := 0, referer := strLit "- ", userAgent := strLit "-",
              body := [], headers := [] }, none) := by decide

/-- Claim C5 as amended: `parse_message` splits the start line on single
spaces with `maxsplit = 2`, producing at most three fields (the third
absorbs any further spaces); a split yielding other than three fields —
necessarily fewer — is a fatal parse failure for that attempt, returning
absent with the original buffer. -/
theorem c5_start_line_field_count (data : Bytes) (t : MessageType) (line : PyStr)
    (rest : Option Bytes) (h1 : parse_line data = (some line, rest))
    (h2 : (pysplit 32 line 2).length ≠ 3) :
    parse_message data t = (none, some data) := by
  have hstart : startPhase data t = none := by
    unfold startPhase
    simp only [h1]
    rcases hsp : pysplit 32 line 2 with - | ⟨f0, - | ⟨f1, - | ⟨f2, - | ⟨f3, l⟩⟩⟩⟩
    · rfl
    · rfl
    · rfl
    · rw [hsp] at h2
      simp at h2
    · rfl
  unfold parse_message parse_attempt
  rw [hstart]

/-- Witness for the amended C5 at a two-field start line. -/
theorem c5_witness :
    parse_message (strLit "GET /\r\n") .REQUEST = (none, some (strLit "GET /\r\n")) :=
  c5_start_line_field_count (strLit "GET /\r\n") .REQUEST (strLit "GET /") none
    (by decide) (by decide)

/-- Claim C6 counterexample: the header-section line `" fold: x"` begins with
a space and appears before any header has been collected, yet the parse
attempt is not fatal: the line falls through to ordinary header processing
and is parsed as the header `fold: x` (both sides stripped). -/
theorem c6_orphan_continuation_cex :
    parse_message (strLit "GET / HTTP/1.0\r\n fold: x\r\n\r\n") .REQUEST =
      (some { type := .REQUEST, method := strLit "GET", uri := strLit "/",
              version := strLit "HTTP/1.0", statusCode := [], statusText := [],
              contentLength := 0, referer := strLit "- ", userAgent := strLit "-",
              body := [],
              headers := [{ name := strLit "fold", value := strLit "x" }] }, none) := by
  decide

/-- Claim C6 as amended: a header-section line beginning with space or tab is
folded into the previous header's value only when at least one header has
already been collected; before any header has been collected such a line is
not folded but processed as an ordinary header line — fatal (absent with
the original buffer) exactly when it contains no colon, and otherwise
appended as a regular header. -/
theorem c6_continuation_handling :
    (∀ (fuel : Nat) (m : Message) (hs : List Header) (u : Bytes) (line : PyStr)
        (u2 : Option Bytes), hs ≠ [] → parse_line u = (some line, u2) → line ≠ [] →
        (line.head? = some 32 ∨ line.head? = some 9) →
        headerPhase (fuel + 1) m hs (some u) = headerPhase fuel m (updLast hs line) u2) ∧
    (∀ (data : Bytes) (t : MessageType) (m0 : Message) (u : Bytes) (line : PyStr)
        (u2 : Option Bytes), startPhase data t = some (m0, some u) →
        parse_line u = (some line, u2) →
        (line.head? = some 32 ∨ line.head? = some 9) → get_header_response line = none →
        parse_message data t = (none, some data)) ∧
    (∀ (fuel : Nat) (m : Message) (u : Bytes) (line : PyStr) (u2 : Option Bytes)
        (h : Header) (m2 : Message), parse_line u = (some line, u2) →
        (line.head? = some 32 ∨ line.head? = some 9) →
        get_header_response line = some h → mirrorHeader m h = some m2 →
        headerPhase (fuel + 1) m [] (some u) = headerPhase fuel m2 [h] u2) := by
  refine ⟨?_, ?_, ?_⟩
  · intro fuel m hs u line u2 hne hpl hline hhead
    rw [headerPhase_succ]
    simp only [hpl]
    rw [if_neg hline, if_pos ⟨hne, hhead⟩]
  · intro data t m0 u line u2 hstart hpl hhead hget
    have hline : line ≠ [] := by
      intro hl
      rw [hl] at hhead
      rcases hhead with h' | h' <;> cases h'
    have hloop : headerPhase (data.length + 1) m0 [] (some u) = none := by
      rw [headerPhase_succ]
      simp only [hpl]
      rw [if_neg hline, if_neg (by simp), hget]
    unfold parse_message parse_attempt
    simp only [hstart]
    rw [hloop]
  · intro fuel m u line u2 h m2 hpl hhead hget hmir
    have hline : line ≠ [] := by
      intro hl
      rw [hl] at hhead
      rcases hhead with h' | h' <;> cases h'
    rw [headerPhase_succ]
    simp only [hpl]
    rw [if_neg hline, if_neg (by simp)]
    simp only [hget, hmir]
    rfl

/-- Witness for the amended C6: an orphan continuation line with no colon is
fatal and returns the original buffer. -/
theorem c6_witness :
    parse_message (strLit "GET / HTTP/1.0\r\n orphan\r\n\r\n") .REQUEST =
      (none, some (strLit "GET / HTTP/1.0\r\n orphan\r\n\r\n")) :=
  c6_continuation_handling.2.1 (strLit "GET / HTTP/1.0\r\n orphan\r\n\r\n") .REQUEST
    { type := .REQUEST, method := strLit "GET", uri := strLit "/",
      version := strLit "HTTP/1.0", referer := strLit "- ", userAgent := strLit "-" }
    (strLit " orphan\r\n\r\n") (strLit " orphan") (some (strLit "\r\n"))
    (by decide) (by decide) (by decide) (by decide)

/-- Head of a `dropWhile` result never satisfies the predicate. -/
theorem head_dropWhile_not {p : Nat → Bool} :
    ∀ (l : List Nat) {a : Nat}, (l.dropWhile p).head? = some a → p a = false
  | [], _, h => by cases h
  | c :: rest, a, h => by
    rw [List.dropWhile_cons] at h
    by_cases hc : p c
    · rw [if_pos hc] at h
      exact head_dropWhile_not rest h
    · rw [if_neg hc] at h
      obtain rfl := Option.some.inj h
      simpa using hc

/-- Every list is its CR-rstripped core followed by some run of CRs, and the
core does not end in a CR. -/
theorem rstripCR_decomp (l : List Nat) :
    ∃ k, l = rstripCR l ++ List.replicate k 13 ∧ (rstripCR l).getLast? ≠ some 13 := by
  have htake : ∃ k, l.reverse.takeWhile (fun c => decide (c = 13)) = List.replicate k 13 :=
    ⟨(l.reverse.takeWhile fun c => decide (c = 13)).length,
      List.eq_replicate_of_mem fun b hb => by simpa using List.mem_takeWhile_imp hb⟩
  obtain ⟨k, hk⟩ := htake
  refine ⟨k, ?_, ?_⟩
  · conv_lhs => rw [← List.reverse_reverse l,
      ← List.takeWhile_append_dropWhile (fun c => decide (c = 13)) l.reverse]
    rw [List.reverse_append, hk, List.reverse_replicate]
    rfl
  · intro hlast
    unfold rstripCR at hlast
    rw [List.getLast?_reverse] at hlast
    have := head_dropWhile_not l.reverse hlast
    simp at this

/-- Claim C9 counterexample: for the buffer `b"a\r\r\n"`, whose only LF is
its final byte, the claim's line — the terminator excluded and a (single)
preceding `\r` stripped — would be `"a\r"` (`[97, 13]`), but `parse_line`
rstrips every trailing CR and returns `"a"` (`[97]`). -/
theorem c9_single_cr_cex :
    parse_line [97, 13, 13, 10] = (some [97], none) ∧ ([97] : PyStr) ≠ [97, 13] :=
  ⟨by decide, by decide⟩

/-- Claim C9 as amended (all trailing `\r` bytes are stripped, not just one):
for every byte buffer whose only LF is its final byte, `parse_line` returns
the line — the terminator excluded and every trailing `\r` stripped,
decoded as Latin-1 (the identity on these bytes) — together with the empty
state `None` as the remainder, which is distinguishable from an empty byte
buffer (`none ≠ some b""`), so callers can tell "no bytes remain" apart
from "zero-length buffer remains". -/
theorem c9_terminator_last_byte (pre : Bytes) (h : 10 ∉ pre) :
    ∃ l k, parse_line (pre ++ [10]) = (some l, none) ∧
      pre = l ++ List.replicate k 13 ∧ l.getLast? ≠ some 13 ∧
      (none : Option Bytes) ≠ some ([] : Bytes) := by
  obtain ⟨k, hdecomp, hlast⟩ := rstripCR_decomp pre
  refine ⟨rstripCR pre, k, ?_, hdecomp, hlast, by simp⟩
  have hsf : splitFirst 10 (pre ++ [10]) = some (pre, []) := by
    have := splitFirst_append ([] : List Nat) h
    simpa using this
  unfold parse_line
  rw [hsf]
  rfl

/-- Witness for the amended C9 at the buffer `b"abc\r\n"`. -/
theorem c9_witness :
    ∃ l k, parse_line (strLit "abc\r" ++ [10]) = (some l, none) ∧
      strLit "abc\r" = l ++ List.replicate k 13 ∧ l.getLast? ≠ some 13 ∧
      (none : Option Bytes) ≠ some ([] : Bytes) :=
  c9_terminator_last_byte (strLit "abc\r") (by decide)

/-- Claim C1 counterexample: with Content-Length 5 and 7 bytes of body-region
data (`b"1234567"`), the parsed body is the first 5 bytes `b"12345"` as the
claim says — but the returned leftover is that same body slice `b"12345"`,
not the remaining 2 bytes `b"67"`: line 129 of the source reassigns
`unparsed = unparsed[:length]` before returning it, so the pipelining
residue is discarded. -/
theorem c1_leftover_cex :
    parse_message (strLit "GET / HTTP/1.0\r\nContent-Length: 5\r\n\r\n1234567") .REQUEST =
      (some { type := .REQUEST, method := strLit "GET", uri := strLit "/",
              version := strLit "HTTP/1.0", statusCode := [], statusText := [],
              contentLength := 5, referer := strLit "- ", userAgent := strLit "-",
              body := strLit "12345",
              headers := [{ name := strLit "Content-Length", value := strLit "5" }] },
       some (strLit "12345")) ∧ strLit "12345" ≠ strLit "67" :=
  ⟨by decide, by decide⟩

/-- Claim C1 as amended: when the derived Content-Length L is positive and at
least L bytes remain after the header block, the parsed body is exactly the
first L of those bytes, and the returned leftover equals that same body
slice — the first L bytes, not the bytes beyond them; in particular when
exactly L bytes remain the leftover is the whole body rather than empty. -/
theorem c1_body_and_leftover (data : Bytes) (t : MessageType) (m0 : Message)
    (u1 : Option Bytes) (m2 : Message) (hs : List Header) (u : Bytes)
    (hstart : startPhase data t = some (m0, u1))
    (hhdr : headerPhase (data.length + 1) m0 [] u1 = some (m2, hs, some u))
    (hpos : 0 < m2.contentLength) (hle : m2.contentLength ≤ (u.length : Int)) :
    parse_message data t =
      (some { m2 with body := u.take m2.contentLength.toNat, headers := hs },
       some (u.take m2.contentLength.toNat)) := by
  have hbp : bodyPhase m2 (some u) =
      some ({ m2 with body := u.take m2.contentLength.toNat },
            some (u.take m2.contentLength.toNat)) := by
    simp only [bodyPhase, if_pos hpos]
    rw [if_neg (show ¬((u.length : Int) < m2.contentLength) by omega)]
    by_cases hgt : m2.contentLength < (u.length : Int)
    · rw [if_pos hgt]
    · rw [if_neg hgt]
      have htn : m2.contentLength.toNat = u.length := by omega
      rw [htn, List.take_length]
  unfold parse_message parse_attempt
  simp only [hstart, hhdr, hbp]

/-- Witness for the amended C1: Content-Length 2 with exactly 3 bytes of
body-region data; the body and the leftover are both the first 2 bytes. -/
theorem c1_witness :
    parse_message (strLit "GET / HTTP/1.0\r\nContent-Length: 2\r\n\r\nhi!") .REQUEST =
      (some { type := .REQUEST, method := strLit "GET", uri := strLit "/",
              version := strLit "HTTP/1.0", statusCode := [], statusText := [],
              contentLength := 2, referer := strLit "- ", userAgent := strLit "-",
              body := strLit "hi",
              headers := [{ name := strLit "Content-Length", value := strLit "2" }] },
       some (strLit "hi")) := by
  have h := c1_body_and_leftover
    (strLit "GET / HTTP/1.0\r\nContent-Length: 2\r\n\r\nhi!") .REQUEST
    { type := .REQUEST, method := strLit "GET", uri := strLit "/",
      version := strLit "HTTP/1.0", referer := strLit "- ", userAgent := strLit "-" }
    (some (strLit "Content-Length: 2\r\n\r\nhi!"))
    { type := .REQUEST, method := strLit "GET", uri := strLit "/",
      version := strLit "HTTP/1.0", contentLength := 2, referer := strLit "- ",
      userAgent := strLit "-" }
    [{ name := strLit "Content-Length", value := strLit "2" }]
    (strLit "hi!") (by decide) (by decide) (by decide) (by decide)
  exact h

/-! ## Round-trip machinery -/

theorem scalarsOfHeaders_cons (cl : Int) (r ua : PyStr) (h : Header) (t : List Header) :
    scalarsOfHeaders cl r ua (h :: t) =
      if h.name = CLname then
        match pyint h.value with
        | none => none
        | some n => scalarsOfHeaders n r ua t
      else if h.name = RefName then scalarsOfHeaders cl h.value ua t
      else if h.name = UAName then scalarsOfHeaders cl r h.value t
      else scalarsOfHeaders cl r ua t := rfl

theorem not_mem_header_line {c : Nat} {n v : PyStr} (hc58 : c ≠ 58) (hc32 : c ≠ 32)
    (hn : c ∉ n) (hv : c ∉ v) : c ∉ n ++ 58 :: 32 :: v := by
  intro hmem
  rcases List.mem_append.1 hmem with h' | h'
  · exact hn h'
  · simp only [List.mem_cons] at h'
    rcases h' with rfl | rfl | h''
    · exact hc58 rfl
    · exact hc32 rfl
    · exact hv h''

theorem header_line_ne_nil (n v : PyStr) : n ++ 58 :: 32 :: v ≠ [] := by
  simp

theorem header_line_not_fold {n v : PyStr} (hn : strippedStr n) :
    ¬((n ++ 58 :: 32 :: v).head? = some 32 ∨ (n ++ 58 :: 32 :: v).head? = some 9) := by
  cases n with
  | nil =>
    intro hor
    rcases hor with h' | h' <;> simp at h'
  | cons c ts =>
    have hsp := strippedStr_head_not_space hn
    simp only [List.cons_append, List.head?_cons]
    intro hor
    rcases hor with h' | h' <;> obtain rfl := Option.some.inj h' <;> simp [isPySpace] at hsp

theorem buildHeaderBlock_length : ∀ hs : List Header, hs.length ≤ (buildHeaderBlock hs).length
  | [] => Nat.le_refl 0
  | h :: t => by
    have := buildHeaderBlock_length t
    simp only [buildHeaderBlock, List.length_cons, List.length_append]
    omega

/-- Parsing the serialized header block: running the header loop on
`buildHeaderBlock hs ++ "\r\n" ++ rest` with enough fuel collects exactly
`hs`, replays the scalar mirroring (failing exactly when some Content-Length
value fails `int()`), and leaves `rest` — as the empty state when `rest` is
empty, since the blank line's LF is then the buffer's last byte. -/
theorem headerPhase_build :
    ∀ (hs : List Header) (fuel : Nat) (m : Message) (acc : List Header) (rest : Bytes),
      (∀ h ∈ hs, goodName h.name ∧ goodValue h.value) → hs.length + 1 ≤ fuel →
      headerPhase fuel m acc (some (buildHeaderBlock hs ++ [13, 10] ++ rest)) =
        match scalarsOfHeaders m.contentLength m.referer m.userAgent hs with
        | none => none
        | some (cl, r, ua) =>
          some ({ m with contentLength := cl, referer := r, userAgent := ua }, acc ++ hs,
                if rest = [] then none else some rest)
  | [], fuel, m, acc, rest, _, hfuel => by
    obtain ⟨f, rfl⟩ : ∃ f, fuel = f + 1 := ⟨fuel - 1, by omega⟩
    have hpl := parse_line_crlf (s := ([] : PyStr)) rest (by simp) (by simp)
    simp only [List.nil_append] at hpl
    rw [headerPhase_succ]
    simp only [buildHeaderBlock, List.nil_append, hpl, scalarsOfHeaders, List.append_nil,
      if_pos rfl, if_true]
  | h :: t, fuel, m, acc, rest, hgood, hfuel => by
    obtain ⟨f, rfl⟩ : ∃ f, fuel = f + 1 := ⟨fuel - 1, by omega⟩
    obtain ⟨⟨⟨hn10, hn13, -⟩, hn58, hnstr⟩, ⟨⟨hv10, hv13, -⟩, hvstr⟩⟩ :=
      hgood h (List.mem_cons_self h t)
    have hgood' : ∀ x ∈ t, goodName x.name ∧ goodValue x.value :=
      fun x hx => hgood x (List.mem_cons_of_mem h hx)
    have hfuel' : t.length + 1 ≤ f := by
      simp only [List.length_cons] at hfuel
      omega
    have harr : buildHeaderBlock (h :: t) ++ [13, 10] ++ rest =
        (h.name ++ 58 :: 32 :: h.value) ++ [13, 10] ++
          (buildHeaderBlock t ++ [13, 10] ++ rest) := by
      have hcs : strLit ": " = [58, 32] := rfl
      simp [buildHeaderBlock, hcs]
    have hpl := parse_line_crlf (s := h.name ++ 58 :: 32 :: h.value)
      (buildHeaderBlock t ++ [13, 10] ++ rest)
      (not_mem_header_line (by decide) (by decide) hn10 hv10)
      (not_mem_header_line (by decide) (by decide) hn13 hv13)
    have hrne : buildHeaderBlock t ++ [13, 10] ++ rest ≠ [] := by simp
    rw [if_neg hrne] at hpl
    rw [harr, headerPhase_succ]
    simp only [hpl]
    rw [if_neg (header_line_ne_nil h.name h.value),
      if_neg (fun hand => header_line_not_fold hnstr hand.2)]
    simp only [get_header_built hn58 hnstr hvstr]
    have hhh : ({ name := h.name, value := h.value } : Header) = h := rfl
    rw [hhh, scalarsOfHeaders_cons]
    unfold mirrorHeader
    by_cases hCL : h.name = CLname
    · simp only [if_pos hCL]
      cases hpi : pyint h.value with
      | none => simp only [hpi]
      | some n =>
        simp only [hpi]
        rw [headerPhase_build t f { m with contentLength := n } (acc ++ [h]) rest
          hgood' hfuel']
        cases scalarsOfHeaders n m.referer m.userAgent t with
        | none => rfl
        | some triple =>
          obtain ⟨cl, r, ua⟩ := triple
          simp [List.append_assoc]
    · simp only [if_neg hCL]
      by_cases hRef : h.name = RefName
      · simp only [if_pos hRef]
        rw [headerPhase_build t f { m with referer := h.value } (acc ++ [h]) rest
          hgood' hfuel']
        cases scalarsOfHeaders m.contentLength h.value m.userAgent t with
        | none => rfl
        | some triple =>
          obtain ⟨cl, r, ua⟩ := triple
          simp [List.append_assoc]
      · simp only [if_neg hRef]
        by_cases hUA : h.name = UAName
        · simp only [if_pos hUA]
          rw [headerPhase_build t f { m with userAgent := h.value } (acc ++ [h]) rest
            hgood' hfuel']
          cases scalarsOfHeaders m.contentLength m.referer h.value t with
          | none => rfl
          | some triple =>
            obtain ⟨cl, r, ua⟩ := triple
            simp [List.append_assoc]
        · simp only [if_neg hUA]
          rw [headerPhase_build t f m (acc ++ [h]) rest hgood' hfuel']
          cases scalarsOfHeaders m.contentLength m.referer m.userAgent t with
          | none => rfl
          | some triple =>
            obtain ⟨cl, r, ua⟩ := triple
            simp [List.append_assoc]

theorem not_mem_start_line {c : Nat} {a b d : PyStr} (hc32 : c ≠ 32)
    (ha : c ∉ a) (hb : c ∉ b) (hd : c ∉ d) : c ∉ a ++ 32 :: (b ++ 32 :: d) := by
  intro hmem
  rcases List.mem_append.1 hmem with h' | h'
  · exact ha h'
  · simp only [List.mem_cons] at h'
    rcases h' with rfl | h'
    · exact hc32 rfl
    · rcases List.mem_append.1 h' with h'' | h''
      · exact hb h''
      · simp only [List.mem_cons] at h''
        rcases h'' with rfl | h''
        · exact hc32 rfl
        · exact hd h''

theorem parse_message_compose {data : Bytes} {t : MessageType} {m0 m2 m3 : Message}
    {u1 u2 : Option Bytes} {hs : List Header} {left : Option Bytes}
    (h1 : startPhase data t = some (m0, u1))
    (h2 : headerPhase (data.length + 1) m0 [] u1 = some (m2, hs, u2))
    (h3 : bodyPhase m2 u2 = some (m3, left)) :
    parse_message data t = (some { m3 with headers := hs }, left) := by
  unfold parse_message parse_attempt
  simp only [h1, h2, h3]

theorem bodyPhase_nonpos {m : Message} (u : Option Bytes) (hcl : m.contentLength ≤ 0) :
    bodyPhase m u = some (m, u) := by
  unfold bodyPhase
  rw [if_neg (by omega)]

theorem bodyPhase_enough {m : Message} {u : Bytes} (hpos : 0 < m.contentLength)
    (hle : m.contentLength ≤ (u.length : Int)) :
    bodyPhase m (some u) =
      some ({ m with body := u.take m.contentLength.toNat },
            some (u.take m.contentLength.toNat)) := by
  simp only [bodyPhase, if_pos hpos]
  rw [if_neg (show ¬((u.length : Int) < m.contentLength) by omega)]
  by_cases hgt : m.contentLength < (u.length : Int)
  · rw [if_pos hgt]
  · rw [if_neg hgt]
    have htn : m.contentLength.toNat = u.length := by omega
    rw [htn, List.take_length]

/-- Claim C4 (confirmed): for every well-formed message M — start-line
fields representable and recoverable, unused kind fields empty, header
names/values colon- and whitespace-clean, derived scalars mirroring the
headers, and the body length equal to the declared Content-Length (or empty
with Content-Length 0) — parsing the bytes of `build_message M` with M's
message type yields a message equal to M, except that for a REQUEST the
version after the round trip is `"HTTP/1.0"` regardless of M's original
version. -/
theorem c4_roundtrip (M : Message) (hwf : Wellformed M) :
    (parse_message (build_message M) M.type).1 = some (roundtripExpected M) := by
  obtain ⟨hreq, hresp, hgoodhs, hscalars, hbody⟩ := hwf
  cases htype : M.type with
  | REQUEST =>
    obtain ⟨⟨⟨hm10, hm13, -⟩, hm32⟩, ⟨⟨hu10, hu13, -⟩, hu32⟩, hsc, hst⟩ := hreq htype
    have h10s : (10 : Nat) ∉ M.method ++ 32 :: (M.uri ++ 32 :: HTTP10) :=
      not_mem_start_line (by decide) hm10 hu10 (by decide)
    have h13s : (13 : Nat) ∉ M.method ++ 32 :: (M.uri ++ 32 :: HTTP10) :=
      not_mem_start_line (by decide) hm13 hu13 (by decide)
    have hsplit := pysplit2_three (a := M.method) (b := M.uri) (c := HTTP10) hm32 hu32
    rcases hbody with ⟨hcl0, hbod0⟩ | ⟨hclpos, hlen⟩
    · -- Content-Length 0, empty body
      have hdata : build_message M =
          (M.method ++ 32 :: (M.uri ++ 32 :: HTTP10)) ++ [13, 10] ++
            (buildHeaderBlock M.headers ++ [13, 10] ++ []) := by
        simp [build_message, encodeLatin1, htype, hbod0]
      have hpls := parse_line_crlf (s := M.method ++ 32 :: (M.uri ++ 32 :: HTTP10))
        (buildHeaderBlock M.headers ++ [13, 10] ++ []) h10s h13s
      rw [if_neg (show buildHeaderBlock M.headers ++ [13, 10] ++ ([] : Bytes) ≠ [] by simp)]
        at hpls
      have hstart : startPhase (build_message M) .REQUEST =
          some ({ type := .REQUEST, method := M.method, uri := M.uri, version := HTTP10,
                  referer := refererDefault, userAgent := userAgentDefault },
                some (buildHeaderBlock M.headers ++ [13, 10] ++ [])) := by
        unfold startPhase
        rw [hdata]
        simp only [hpls, hsplit]
      have hflen : M.headers.length + 1 ≤ (build_message M).length + 1 := by
        have h1 := buildHeaderBlock_length M.headers
        rw [hdata]
        simp only [List.length_append]
        omega
      have hhdr := headerPhase_build M.headers ((build_message M).length + 1)
        { type := .REQUEST, method := M.method, uri := M.uri, version := HTTP10,
          referer := refererDefault, userAgent := userAgentDefault } [] [] hgoodhs hflen
      simp only [hscalars, List.nil_append, if_true, eq_self_iff_true] at hhdr
      have hfinal := parse_message_compose hstart hhdr
        (bodyPhase_nonpos none (by simp [hcl0]))
      rw [hfinal]
      show some _ = some (roundtripExpected M)
      unfold roundtripExpected
      rw [htype, hsc, hst, hbod0]
    · -- positive Content-Length, body of exactly that length
      have hbln : 0 < M.body.length := by omega
      have hbodne : M.body ≠ [] := by
        intro h'
        rw [h'] at hbln
        simp at hbln
      have hdata : build_message M =
          (M.method ++ 32 :: (M.uri ++ 32 :: HTTP10)) ++ [13, 10] ++
            (buildHeaderBlock M.headers ++ [13, 10] ++ M.body) := by
        simp [build_message, encodeLatin1, htype, if_pos hbln]
      have hpls := parse_line_crlf (s := M.method ++ 32 :: (M.uri ++ 32 :: HTTP10))
        (buildHeaderBlock M.headers ++ [13, 10] ++ M.body) h10s h13s
      rw [if_neg (show buildHeaderBlock M.headers ++ [13, 10] ++ M.body ≠ [] by simp)]
        at hpls
      have hstart : startPhase (build_message M) .REQUEST =
          some ({ type := .REQUEST, method := M.method, uri := M.uri, version := HTTP10,
                  referer := refererDefault, userAgent := userAgentDefault },
                some (buildHeaderBlock M.headers ++ [13, 10] ++ M.body)) := by
        unfold startPhase
        rw [hdata]
        simp only [hpls, hsplit]
      have hflen : M.headers.length + 1 ≤ (build_message M).length + 1 := by
        have h1 := buildHeaderBlock_length M.headers
        rw [hdata]
        simp only [List.length_append]
        omega
      have hhdr := headerPhase_build M.headers ((build_message M).length + 1)
        { type := .REQUEST, method := M.method, uri := M.uri, version := HTTP10,
          referer := refererDefault, userAgent := userAgentDefault } [] M.body hgoodhs hflen
      simp only [hscalars, List.nil_append] at hhdr
      rw [if_neg hbodne] at hhdr
      have hfinal := parse_message_compose hstart hhdr
        (bodyPhase_enough (by simpa using hclpos) (by simp [hlen]))
      rw [hfinal]
      have htake : M.body.take M.contentLength.toNat = M.body := by
        have h' : M.contentLength.toNat = M.body.length := by omega
        rw [h', List.take_length]
      show some ({ type := .REQUEST, method := M.method, uri := M.uri, version := HTTP10,
                   contentLength := M.contentLength, referer := M.referer,
                   userAgent := M.userAgent, body := M.body.take M.contentLength.toNat,
                   headers := M.headers } : Message) =
        some (roundtripExpected M)
      unfold roundtripExpected
      rw [htype, hsc, hst, htake]
  | RESPONSE =>
    obtain ⟨⟨⟨hv10, hv13, -⟩, hv32⟩, ⟨⟨hc10, hc13, -⟩, hc32⟩, ⟨ht10, ht13, -⟩, hme, hur⟩ :=
      hresp htype
    have h10s : (10 : Nat) ∉ M.version ++ 32 :: (M.statusCode ++ 32 :: M.statusText) :=
      not_mem_start_line (by decide) hv10 hc10 ht10
    have h13s : (13 : Nat) ∉ M.version ++ 32 :: (M.statusCode ++ 32 :: M.statusText) :=
      not_mem_start_line (by decide) hv13 hc13 ht13
    have hsplit := pysplit2_three (a := M.version) (b := M.statusCode) (c := M.statusText)
      hv32 hc32
    rcases hbody with ⟨hcl0, hbod0⟩ | ⟨hclpos, hlen⟩
    · have hdata : build_message M =
          (M.version ++ 32 :: (M.statusCode ++ 32 :: M.statusText)) ++ [13, 10] ++
            (buildHeaderBlock M.headers ++ [13, 10] ++ []) := by
        simp [build_message, encodeLatin1, htype, hbod0]
      have hpls := parse_line_crlf (s := M.version ++ 32 :: (M.statusCode ++ 32 :: M.statusText))
        (buildHeaderBlock M.headers ++ [13, 10] ++ []) h10s h13s
      rw [if_neg (show buildHeaderBlock M.headers ++ [13, 10] ++ ([] : Bytes) ≠ [] by simp)]
        at hpls
      have hstart : startPhase (build_message M) .RESPONSE =
          some ({ type := .RESPONSE, version := M.version, statusCode := M.statusCode,
                  statusText := M.statusText, referer := refererDefault,
                  userAgent := userAgentDefault },
                some (buildHeaderBlock M.headers ++ [13, 10] ++ [])) := by
        unfold startPhase
        rw [hdata]
        simp only [hpls, hsplit]
      have hflen : M.headers.length + 1 ≤ (build_message M).length + 1 := by
        have h1 := buildHeaderBlock_length M.headers
        rw [hdata]
        simp only [List.length_append]
        omega
      have hhdr := headerPhase_build M.headers ((build_message M).length + 1)
        { type := .RESPONSE, version := M.version, statusCode := M.statusCode,
          statusText := M.statusText, referer := refererDefault,
          userAgent := userAgentDefault } [] [] hgoodhs hflen
      simp only [hscalars, List.nil_append, if_true, eq_self_iff_true] at hhdr
      have hfinal := parse_message_compose hstart hhdr
        (bodyPhase_nonpos none (by simp [hcl0]))
      rw [hfinal]
      show some ({ type := .RESPONSE, version := M.version, statusCode := M.statusCode,
                   statusText := M.statusText, contentLength := M.contentLength,
                   referer := M.referer, userAgent := M.userAgent,
                   headers := M.headers } : Message) = some (roundtripExpected M)
      unfold roundtripExpected
      rw [htype]
      show some _ = some ({ type := M.type, method := M.method, uri := M.uri,
                            version := M.version, statusCode := M.statusCode,
                            statusText := M.statusText, contentLength := M.contentLength,
                            referer := M.referer, userAgent := M.userAgent,
                            body := M.body, headers := M.headers } : Message)
      rw [htype, hme, hur, hbod0]
    · have hbln : 0 < M.body.length := by omega
      have hbodne : M.body ≠ [] := by
        intro h'
        rw [h'] at hbln
        simp at hbln
      have hdata : build_message M =
          (M.version ++ 32 :: (M.statusCode ++ 32 :: M.statusText)) ++ [13, 10] ++
            (buildHeaderBlock M.headers ++ [13, 10] ++ M.body) := by
        simp [build_message, encodeLatin1, htype, if_pos hbln]
      have hpls := parse_line_crlf (s := M.version ++ 32 :: (M.statusCode ++ 32 :: M.statusText))
        (buildHeaderBlock M.headers ++ [13, 10] ++ M.body) h10s h13s
      rw [if_neg (show buildHeaderBlock M.headers ++ [13, 10] ++ M.body ≠ [] by simp)]
        at hpls
      have hstart : startPhase (build_message M) .RESPONSE =
          some ({ type := .RESPONSE, version := M.version, statusCode := M.statusCode,
                  statusText := M.statusText, referer := refererDefault,
                  userAgent := userAgentDefault },
                some (buildHeaderBlock M.headers ++ [13, 10] ++ M.body)) := by
        unfold startPhase
        rw [hdata]
        simp only [hpls, hsplit]
      have hflen : M.headers.length + 1 ≤ (build_message M).length + 1 := by
        have h1 := buildHeaderBlock_length M.headers
        rw [hdata]
        simp only [List.length_append]
        omega
      have hhdr := headerPhase_build M.headers ((build_message M).length + 1)
        { type := .RESPONSE, version := M.version, statusCode := M.statusCode,
          statusText := M.statusText, referer := refererDefault,
          userAgent := userAgentDefault } [] M.body hgoodhs hflen
      simp only [hscalars, List.nil_append] at hhdr
      rw [if_neg hbodne] at hhdr
      have hfinal := parse_message_compose hstart hhdr
        (bodyPhase_enough (by simpa using hclpos) (by simp [hlen]))
      rw [hfinal]
      have htake : M.body.take M.contentLength.toNat = M.body := by
        have h' : M.contentLength.toNat = M.body.length := by omega
        rw [h', List.take_length]
      show some ({ type := .RESPONSE, version := M.version, statusCode := M.statusCode,
                   statusText := M.statusText, contentLength := M.contentLength,
                   referer := M.referer, userAgent := M.userAgent,
                   body := M.body.take M.contentLength.toNat,
                   headers := M.headers } : Message) = some (roundtripExpected M)
      unfold roundtripExpected
      rw [htype]
      show some _ = some ({ type := M.type, method := M.method, uri := M.uri,
                            version := M.version, statusCode := M.statusCode,
                            statusText := M.statusText, contentLength := M.contentLength,
                            referer := M.referer, userAgent := M.userAgent,
                            body := M.body, headers := M.headers } : Message)
      rw [htype, hme, hur, htake]

/-- Witness for C4 at a concrete well-formed request with two headers and a
two-byte body: the round trip restores everything except the version, which
becomes `HTTP/1.0`. -/
theorem c4_witness :
    (parse_message
        (build_message
          { type := .REQUEST, method := strLit "GET", uri := strLit "/x",
            version := strLit "HTTP/1.1", contentLength := 2,
            referer := strLit "- ", userAgent := strLit "ua", body := strLit "hi",
            headers := [{ name := strLit "Content-Length", value := strLit "2" },
                        { name := strLit "User-Agent", value := strLit "ua" }] })
        .REQUEST).1 =
      some (roundtripExpected
        { type := .REQUEST, method := strLit "GET", uri := strLit "/x",
          version := strLit "HTTP/1.1", contentLength := 2,
          referer := strLit "- ", userAgent := strLit "ua", body := strLit "hi",
          headers := [{ name := strLit "Content-Length", value := strLit "2" },
                      { name := strLit "User-Agent", value := strLit "ua" }] }) :=
  c4_roundtrip
    { type := .REQUEST, method := strLit "GET", uri := strLit "/x",
      version := strLit "HTTP/1.1", contentLength := 2,
      referer := strLit "- ", userAgent := strLit "ua", body := strLit "hi",
      headers := [{ name := strLit "Content-Length", value := strLit "2" },
                  { name := strLit "User-Agent", value := strLit "ua" }] }
    (by decide)
